import Mathlib

/-!
# Verification of the CP4I download orchestration core (`src/app.py`)

Shallow embedding of the job-orchestration slice of `app.py`:
the `DownloadManager` registry (`self.downloads`), the global
`download_history` list, the monitor thread `_monitor_download`
(split into the poll-iteration body and the post-exit final
classification), `start_download`, `stop_download`,
`dismiss_download`, `get_download_status` / `_get_progress`, and the
three branches of the `retry_download` route.

Modelling conventions:
* Each critical section of the Python code becomes one total Lean
  function on an explicit state `MgrState`; timestamps are abstract
  `Nat` values passed in, process exit codes are `Int`.
* Log files are external inputs: a poll or final-classification step
  receives the file content (`Option String`, `none` = file absent)
  exactly as the Python code re-reads it.
* The regex search for the secondary ("mirror") pid is abstracted by
  an `Option Nat` input holding the match result, since no claim
  depends on the regex itself.
* Python's text operations (`.strip()`, `.split('\n')`, `.lower()`,
  substring `in`) are re-implemented structurally over `List Char`
  so that every concrete instance evaluates inside the kernel.
* The monitor thread in the source captures the job dict once before
  its loop and mutates it in place; while the job id is registered
  this dict *is* the registry entry, which is the situation modelled
  here (each modelled operation finds the job through the registry).
  The 5-second grace window of the in-loop terminal paths, during
  which the registry lock is released, is modelled separately by the
  split steps `monFailMark` / `monGraceRemove`.
-/

/-- Python-style text predicates, structural over `List Char`. -/
def lowerL (l : List Char) : List Char := l.map Char.toLower

/-- Whitespace set of Python `str.strip()` (the characters that occur in logs). -/
def isWsC (c : Char) : Bool :=
  c = ' ' || c = '\t' || c = '\n' || c = '\r'

/-- `str.strip()` on a char list. -/
def pyStrip (l : List Char) : List Char :=
  ((l.dropWhile isWsC).reverse.dropWhile isWsC).reverse

/-- `str.split('\n')` on a char list: always returns at least one line. -/
def splitLinesC : List Char → List (List Char)
  | [] => [[]]
  | c :: rest =>
    match splitLinesC rest with
    | [] => [[c]]
    | l :: ls => if c = '\n' then [] :: l :: ls else (c :: l) :: ls

/-- `lines[-1]` after `content.strip().split('\n')`, as in `_monitor_download`. -/
def lastLineC (content : List Char) : List Char :=
  (splitLinesC (pyStrip content)).getLastD []

/-- Does `hay` start with `needle`? -/
def startsWithC : List Char → List Char → Bool
  | [], _ => true
  | _ :: _, [] => false
  | a :: as, b :: bs => a = b && startsWithC as bs

/-- Python's substring test `needle in hay`. -/
def containsC (needle : List Char) : List Char → Bool
  | [] => startsWithC needle []
  | c :: rest => startsWithC needle (c :: rest) || containsC needle rest

/-- Failure marker checked against the lowered last log line. -/
def failMarker : List Char := "error: one or more errors occurred".data

/-- Completion marker checked against the lowered last log line. -/
def okMarker : List Char := "info: mirroring completed".data

/-- Dry-run marker checked against the lowered full log content. -/
def dryMarker : List Char := "[dry run]".data

/-- `"error: one or more errors occurred" in last_line.lower()`. -/
def lineFail (content : String) : Bool :=
  containsC failMarker (lowerL (lastLineC content.data))

/-- `"info: mirroring completed" in last_line.lower()`. -/
def lineOk (content : String) : Bool :=
  containsC okMarker (lowerL (lastLineC content.data))

/-- `"[dry run]" in log_content.lower()`. -/
def dryIn (content : String) : Bool :=
  containsC dryMarker (lowerL content.data)

/-- The status strings assigned by `app.py`. -/
inductive Status where
  | running
  | progressing
  | completed
  | failed
  | stopped
  | dismissed
deriving DecidableEq, Repr

/-- One entry of `DownloadManager.downloads`: the job dict built by
`start_download` and the retry branches.  Fields the source stores
only on some paths are modelled totally (reads in the source use
`dict.get` with the corresponding defaults). -/
structure Download where
  id : String
  component : String
  version : String
  name : String
  filter : Option String
  status : Status
  startTime : Nat
  endTime : Option Nat
  pid : Nat
  mirrorPid : Option Nat
  logFile : String
  homeDir : String
  finalRegistry : String
  registryAuthFile : String
  entitlementKey : Option String
  directToRegistry : Bool
  downloadMode : String
  mirrorType : String
  catalogVersion : Option String
  progress : Nat
deriving DecidableEq, Repr

/-- A `download_history` entry: the configuration snapshot the monitor,
dismiss and retry paths append (the source builds the same dict at
every insertion site). -/
structure HistoryEntry where
  id : String
  component : String
  version : String
  name : String
  filter : Option String
  status : Status
  startTime : Nat
  endTime : Option Nat
  homeDir : String
  finalRegistry : String
  registryAuthFile : String
  entitlementKey : Option String
  directToRegistry : Bool
  downloadMode : String
  mirrorType : String
  catalogVersion : Option String
deriving DecidableEq, Repr

/-- Build the history dict from the (just mutated) job dict, as each
`history_entry = {...}` block in the source does. -/
def mkHist (d : Download) : HistoryEntry :=
  ⟨d.id, d.component, d.version, d.name, d.filter, d.status, d.startTime,
   d.endTime, d.homeDir, d.finalRegistry, d.registryAuthFile,
   d.entitlementKey, d.directToRegistry, d.downloadMode, d.mirrorType,
   d.catalogVersion⟩

/-- Shared state: `DownloadManager.downloads` plus the global
`download_history` list. -/
structure MgrState where
  downloads : List (String × Download)
  history : List HistoryEntry
deriving DecidableEq, Repr

/-- `self.downloads.get(key)`. -/
def lookupD (k : String) : List (String × Download) → Option Download
  | [] => none
  | (a, d) :: rest => if a = k then some d else lookupD k rest

/-- `del self.downloads[key]` (no-op when absent, as the guarded deletes are). -/
def removeD (k : String) (l : List (String × Download)) : List (String × Download) :=
  l.filter (fun p => p.1 ≠ k)

/-- `self.downloads[key] = d`. -/
def setD (k : String) (d : Download) (l : List (String × Download)) :
    List (String × Download) :=
  (k, d) :: removeD k l

/-- Terminal handling common to every insertion site: append the history
entry built from the final job record and delete the registry entry. -/
def finalize (s : MgrState) (did : String) (d3 : Download) : MgrState :=
  ⟨removeD did s.downloads, s.history ++ [mkHist d3]⟩

/-- Number of history entries recorded for a given job id. -/
def histCount (s : MgrState) (i : String) : Nat :=
  (s.history.filter (fun h => h.id = i)).length

/-- `status = "failed"; end_time = now()`. -/
def asFailed (d : Download) (t : Nat) : Download :=
  { d with status := Status.failed, endTime := some t }

/-- `status = "completed"; progress = 100; end_time = now()`. -/
def asCompleted (d : Download) (t : Nat) : Download :=
  { d with
    status := Status.completed
    progress := 100
    endTime := some t }

/-- `status = "dismissed"; end_time = now()`. -/
def asDismissed (d : Download) (t : Nat) : Download :=
  { d with status := Status.dismissed, endTime := some t }

/-- `status = "stopped"; end_time = now()`. -/
def asStopped (d : Download) (t : Nat) : Download :=
  { d with status := Status.stopped, endTime := some t }

/-! ## The monitor: one poll-loop iteration (`_monitor_download`, in-loop part)

Inputs beyond the shared state: the log content as re-read this
iteration (`none` = `os.path.exists(log_file)` false), the current and
previously seen log sizes, the result of the mirror-pid regex search
on the content, and the wall-clock stamp used for `datetime.now()`. -/

/-- Capture of the secondary pid:
`if not download.get("mirror_pid"): ... download["mirror_pid"] = m`
(Python treats a stored `0` as falsy, hence the second branch). -/
def pidCapture (d : Download) (pm : Option Nat) : Download :=
  let falsy := match d.mirrorPid with
    | none => true
    | some p => p = 0
  if falsy then
    match pm with
    | some p => { d with mirrorPid := some p }
    | none => d
  else d

/-- Log-growth heuristic:
`if current_size > last_log_size: ... if status != "completed":
status = "progressing"; progress = min(95, progress + 5)`. -/
def growthUpdate (d : Download) (grown : Bool) : Download :=
  if grown then
    if d.status ≠ Status.completed then
      { d with status := Status.progressing, progress := min 95 (d.progress + 5) }
    else d
  else d

/-- Result of one poll iteration: the new shared state, the new
`last_log_size`, whether the monitor returned (terminal detected), and
the final value of the job dict the monitor holds. -/
structure PollOut where
  state : MgrState
  lastSize : Nat
  returned : Bool
  job : Option Download
deriving DecidableEq, Repr

/-- One iteration of the monitor loop while the process is still alive.
Order as in the source: mirror-pid capture, growth update, failure
marker on the last line, completion marker on the last line.  The
in-loop terminal paths fold the five-second grace sleep and the guarded
delete into the same step; the split across the released lock is
modelled by `monFailMark` / `monGraceRemove` below. -/
def monPoll (s : MgrState) (did : String) (log : Option String)
    (curSize lastSize : Nat) (pm : Option Nat) (t : Nat) : PollOut :=
  match lookupD did s.downloads with
  | none => ⟨s, lastSize, false, none⟩
  | some d =>
    match log with
    | none => ⟨s, lastSize, false, some d⟩
    | some content =>
      let grown := lastSize < curSize
      let d2 := growthUpdate (pidCapture d pm) grown
      let ls2 := if grown then curSize else lastSize
      if lineFail content then
        if d2.status ≠ Status.failed then
          let d3 := { d2 with status := Status.failed, endTime := some t }
          ⟨finalize s did d3, ls2, true, some d3⟩
        else
          ⟨⟨removeD did s.downloads, s.history⟩, ls2, true, some d2⟩
      else if lineOk content then
        if d2.status ≠ Status.completed then
          let d3 := { d2 with
            status := Status.completed
            progress := 100
            endTime := some t }
          ⟨finalize s did d3, ls2, true, some d3⟩
        else
          ⟨⟨removeD did s.downloads, s.history⟩, ls2, true, some d2⟩
      else
        ⟨⟨setD did d2 s.downloads, s.history⟩, ls2, false, some d2⟩

/-! ## The monitor: final classification after process exit -/

/-- Exit-code fallback of `_monitor_download`: nonzero → failed,
zero → completed with progress 100; both branches append one history
entry and delete the job, with no status guard. -/
def monFallback (s : MgrState) (did : String) (rc : Int) (t : Nat) :
    MgrState × Option Download :=
  if rc ≠ 0 then
    match lookupD did s.downloads with
    | some d =>
      let d3 := { d with status := Status.failed, endTime := some t }
      (finalize s did d3, some d3)
    | none => (s, none)
  else
    match lookupD did s.downloads with
    | some d =>
      let d3 := { d with
        status := Status.completed
        progress := 100
        endTime := some t }
      (finalize s did d3, some d3)
    | none => (s, none)

/-- Final classification (`_monitor_download` after the loop breaks):
re-read the log; failure marker first, then completion marker or the
dry-run condition (`"[dry run]" in content.lower() and returncode == 0`),
else the exit-code fallback.  The marker branches are guarded by
`download_id in self.downloads and status != ...` and always run the
guarded delete afterwards. -/
def monFinal (s : MgrState) (did : String) (log : Option String)
    (rc : Int) (t : Nat) : MgrState × Option Download :=
  match log with
  | some content =>
    if lineFail content then
      match lookupD did s.downloads with
      | some d =>
        if d.status ≠ Status.failed then
          let d3 := { d with status := Status.failed, endTime := some t }
          (finalize s did d3, some d3)
        else
          (⟨removeD did s.downloads, s.history⟩, some d)
      | none => (s, none)
    else if lineOk content || (dryIn content && rc = 0) then
      match lookupD did s.downloads with
      | some d =>
        if d.status ≠ Status.completed then
          let d3 := { d with
            status := Status.completed
            progress := 100
            endTime := some t }
          (finalize s did d3, some d3)
        else
          (⟨removeD did s.downloads, s.history⟩, some d)
      | none => (s, none)
    else monFallback s did rc t
  | none => monFallback s did rc t

/-! ## Split steps for the grace windows

Each of the four marker-terminal paths (in-loop failure, in-loop
completion, final failure, final completion) holds the lock for the
mutation and the history append, releases it for `time.sleep(5)`, then
re-acquires it for the guarded delete.  These two halves are the
atomic steps other threads can interleave with; `monPoll` / `monFinal`
above fold them into one step, which is what a thread that is not
interleaved with observes. -/

/-- First half of a failure-marker path (lock held): set status and
end time, append the history entry.  The job stays registered. -/
def monFailMark (s : MgrState) (did : String) (t : Nat) : MgrState :=
  match lookupD did s.downloads with
  | none => s
  | some d =>
    if d.status ≠ Status.failed then
      let d3 := { d with status := Status.failed, endTime := some t }
      ⟨setD did d3 s.downloads, s.history ++ [mkHist d3]⟩
    else s

/-- First half of a completion-marker path (lock held): set status,
progress 100 and end time, append the history entry.  The job stays
registered. -/
def monCompleteMark (s : MgrState) (did : String) (t : Nat) : MgrState :=
  match lookupD did s.downloads with
  | none => s
  | some d =>
    if d.status ≠ Status.completed then
      let d3 := asCompleted d t
      ⟨setD did d3 s.downloads, s.history ++ [mkHist d3]⟩
    else s

/-- Second half after the grace sleep:
`if download_id in self.downloads: del self.downloads[download_id]`. -/
def monGraceRemove (s : MgrState) (did : String) : MgrState :=
  ⟨removeD did s.downloads, s.history⟩

/-! ## Dismiss, stop, start, query -/

/-- `dismiss_download`: the whole body runs under the registry lock.
`killMirrorOk` / `killMainOk` are the outcomes of the `os.kill` /
`pkill` attempts; every failure is caught (`except ProcessLookupError`
/ `except Exception`) and has no effect on the state transition. -/
def dismiss_download (s : MgrState) (did : String)
    (_killMirrorOk _killMainOk : Bool) (t : Nat) : MgrState × Bool :=
  match lookupD did s.downloads with
  | some d =>
    let d3 := { d with status := Status.dismissed, endTime := some t }
    (finalize s did d3, true)
  | none => (s, false)

/-- Result of `stop_download`. -/
inductive StopRes where
  | ok
  | notFound
  | notRunning
  | termFail
deriving DecidableEq, Repr

/-- `stop_download`: only jobs whose status is exactly `"running"` can
be stopped; `termOk` is whether `process.terminate()` returned without
raising (on an exception the status is never written). -/
def stop_download (s : MgrState) (did : String) (termOk : Bool) (t : Nat) :
    MgrState × StopRes :=
  match lookupD did s.downloads with
  | none => (s, StopRes.notFound)
  | some d =>
    if d.status ≠ Status.running then (s, StopRes.notRunning)
    else if termOk then
      (⟨setD did { d with status := Status.stopped, endTime := some t } s.downloads,
        s.history⟩, StopRes.ok)
    else (s, StopRes.termFail)

/-- Launch parameters of `start_download` (the configuration portion;
`None`-able strings keep their Python optionality). -/
structure StartParams where
  component : String
  version : String
  name : String
  filter : Option String
  homeDir : Option String
  finalRegistry : Option String
  registryAuthFile : Option String
  entitlementKey : Option String
  directToRegistry : Bool
  downloadMode : String
deriving DecidableEq, Repr

/-- Result of `start_download`. -/
inductive StartRes where
  | ok (pid : Nat)
  | dupError
  | spawnError
deriving DecidableEq, Repr

/-- Outcome of `start_download`, recording whether control reached
`subprocess.Popen` (the duplicate branch returns before it). -/
structure StartOut where
  state : MgrState
  res : StartRes
  spawnAttempted : Bool
deriving DecidableEq, Repr

/-- Module-level default `HOME_DIR`. -/
def HOME_DIR : String := "/opt/cp4i"

/-- Python `a or b` for an optional string `a` (`None` and `""` are falsy). -/
def pyOrS (o : Option String) (dflt : String) : String :=
  match o with
  | some v => if v = "" then dflt else v
  | none => dflt

/-- `start_download`: duplicate-id check first, then defaults, spawn and
registration of a `running` job; a spawn exception leaves the state
untouched and is returned as an error. -/
def start_download (s : MgrState) (did : String) (p : StartParams)
    (spawnOk : Bool) (pid t : Nat) : StartOut :=
  if (lookupD did s.downloads).isSome then
    ⟨s, StartRes.dupError, false⟩
  else
    let hd := pyOrS p.homeDir HOME_DIR
    let fr := pyOrS p.finalRegistry "registry.example.com:5000"
    let ra := pyOrS p.registryAuthFile "/root/.docker/config.json"
    if spawnOk then
      let j : Download :=
        ⟨did, p.component, p.version, p.name, p.filter, Status.running, t, none,
         pid, none, hd ++ "/" ++ p.name ++ "/" ++ p.name ++ "-download.log",
         hd, fr, ra, p.entitlementKey, p.directToRegistry, p.downloadMode,
         "", none, 0⟩
      ⟨⟨setD did j s.downloads, s.history⟩, StartRes.ok pid, true⟩
    else ⟨s, StartRes.spawnError, true⟩

/-- The dict returned by `get_download_status`. -/
structure StatusView where
  id : String
  component : String
  version : String
  name : String
  status : Status
  startTime : Nat
  endTime : Option Nat
  pid : Nat
  logTail : List String
  progress : Option String
deriving DecidableEq, Repr

/-- `_get_log_tail(log_file, lines=50)`: `readlines()[-50:]`, or `[]`
when the file is absent.  The file content arrives as its line list. -/
def getLogTail (fileLines : Option (List String)) : List String :=
  match fileLines with
  | none => []
  | some ls => ls.drop (ls.length - 50)

/-- `_get_progress(key)`: looks the key up in `self.downloads` (the
registry is keyed by download id), then reports the content of the
summary-report file if it exists.  `summaryFile` is that file's
content (`none` = absent). -/
def getProgress (s : MgrState) (key : String) (summaryFile : Option String) :
    Option String :=
  match lookupD key s.downloads with
  | none => none
  | some d => if d.name = "" then none else summaryFile

/-- `get_download_status`: `none` models the `"Download not found"`
error; note the source passes `download.get("name")` — not the id — to
`_get_progress`. -/
def get_download_status (s : MgrState) (did : String)
    (fileLines : Option (List String)) (summaryFile : Option String) :
    Option StatusView :=
  match lookupD did s.downloads with
  | none => none
  | some d =>
    some ⟨did, d.component, d.version, d.name, d.status, d.startTime,
          d.endTime, d.pid, getLogTail fileLines,
          getProgress s d.name summaryFile⟩

/-! ## Retry (`/api/downloads/<id>/retry`) -/

/-- The configuration fields `retry_download` reads off the retried
job, identical between an active job dict and a history entry. -/
structure JobCfg where
  component : String
  version : String
  name : String
  filter : Option String
  homeDir : String
  finalRegistry : String
  registryAuthFile : String
  entitlementKey : Option String
  directToRegistry : Bool
  downloadMode : String
  mirrorType : String
  catalogVersion : Option String
deriving DecidableEq, Repr

/-- Configuration view of an active job. -/
def Download.cfg (d : Download) : JobCfg :=
  ⟨d.component, d.version, d.name, d.filter, d.homeDir, d.finalRegistry,
   d.registryAuthFile, d.entitlementKey, d.directToRegistry, d.downloadMode,
   d.mirrorType, d.catalogVersion⟩

/-- Configuration view of a history entry. -/
def HistoryEntry.cfg (h : HistoryEntry) : JobCfg :=
  ⟨h.component, h.version, h.name, h.filter, h.homeDir, h.finalRegistry,
   h.registryAuthFile, h.entitlementKey, h.directToRegistry, h.downloadMode,
   h.mirrorType, h.catalogVersion⟩

/-- Job resolution at the top of `retry_download`: active downloads
first, then the first matching history entry. -/
def foundCfg (s : MgrState) (did : String) : Option JobCfg :=
  match lookupD did s.downloads with
  | some d => some d.cfg
  | none => (s.history.find? (fun h => h.id = did)).map HistoryEntry.cfg

/-- Result of `retry_download`. -/
inductive RetryRes where
  | notFound
  | missingData
  | spawnFail
  | ok (newId : String)
deriving DecidableEq, Repr

/-- `version_str.startswith('v')` (kernel-friendly form). -/
def startsWithV (v : String) : Bool :=
  match v.data with
  | c :: _ => c = 'v'
  | [] => false

/-- `version_str[1:]`. -/
def dropFirstChar (v : String) : String :=
  String.mk (v.data.drop 1)

/-- `name` used by the openshift retry branch (generated when absent). -/
def osRetryName (j : JobCfg) (ts : Nat) : String :=
  if j.name = "" then
    "ocp-" ++ j.version ++ "-x86_64-retry-" ++ toString ts
  else j.name

/-- New id assigned by the openshift retry branch. -/
def osRetryId (j : JobCfg) (ts : Nat) : String :=
  osRetryName j ts ++ "-retry-" ++ toString ts

/-- The job dict registered by the openshift retry branch. -/
def osRetryJob (j : JobCfg) (ts pid t : Nat) : Download :=
  ⟨osRetryId j ts, "openshift", j.version, osRetryName j ts, none,
   Status.running, t, none, pid, none,
   j.homeDir ++ "/" ++ osRetryName j ts ++ ".log", j.homeDir,
   j.finalRegistry, j.registryAuthFile, none, false, "standard",
   j.mirrorType, none, 0⟩

def retryOpenshift (s : MgrState) (did : String) (j : JobCfg)
    (ts pid t : Nat) (spawnOk : Bool) : MgrState × RetryRes :=
  if j.version = "" then (s, RetryRes.missingData)
  else
    let hist1 := s.history.filter (fun h => h.id ≠ did)
    if spawnOk then
      (⟨setD (osRetryId j ts) (osRetryJob j ts pid t) s.downloads, hist1⟩,
       RetryRes.ok (osRetryId j ts))
    else (⟨s.downloads, hist1⟩, RetryRes.spawnFail)

/-- Catalog-version resolution of the `redhat-operators` retry branch:
the stored `catalog_version` when truthy, else `version[1:]` when the
stored version starts with `'v'`. -/
def resolveCatalog (j : JobCfg) : Option String :=
  let cv0 : Option String := match j.catalogVersion with
    | some c => if c = "" then none else some c
    | none => none
  match cv0 with
  | some c => some c
  | none =>
    if startsWithV j.version then some (dropFirstChar j.version) else none

/-- New id assigned by the redhat-operators retry branch. -/
def opRetryId (cv : String) (ts : Nat) : String :=
  "operators-v" ++ cv ++ "-retry-" ++ toString ts

/-- The job dict registered by the redhat-operators retry branch. -/
def opRetryJob (j : JobCfg) (cv : String) (ts pid t : Nat) : Download :=
  ⟨opRetryId cv ts, "redhat-operators", "v" ++ cv, "operators-v" ++ cv, none,
   Status.running, t, none, pid, none,
   j.homeDir ++ "/" ++ ("operators-v" ++ cv) ++ ".log", j.homeDir,
   (if j.mirrorType = "registry" then j.finalRegistry else "file://"),
   j.registryAuthFile, none, false, "standard", j.mirrorType, some cv, 0⟩

/-- The `component == 'redhat-operators'` branch of `retry_download`. -/
def retryOperators (s : MgrState) (did : String) (j : JobCfg)
    (ts pid t : Nat) (spawnOk : Bool) : MgrState × RetryRes :=
  match resolveCatalog j with
  | none => (s, RetryRes.missingData)
  | some cv =>
    let hist1 := s.history.filter (fun h => h.id ≠ did)
    if spawnOk then
      (⟨setD (opRetryId cv ts) (opRetryJob j cv ts pid t) s.downloads, hist1⟩,
       RetryRes.ok (opRetryId cv ts))
    else (⟨s.downloads, hist1⟩, RetryRes.spawnFail)

/-- New id assigned by the CP4I retry branch. -/
def cpRetryId (j : JobCfg) (ts : Nat) : String :=
  j.name ++ "-retry-" ++ toString ts

/-- The job dict registered by the CP4I retry branch (overrides of the
request body applied through Python's `or`). -/
def cpRetryJob (j : JobCfg) (ts pid t : Nat)
    (ovHome ovReg ovAuth ovKey : Option String) : Download :=
  let hd := pyOrS ovHome j.homeDir
  let fr := pyOrS ovReg j.finalRegistry
  let ra := pyOrS ovAuth j.registryAuthFile
  let ek : Option String := match ovKey with
    | some v => if v = "" then j.entitlementKey else some v
    | none => j.entitlementKey
  ⟨cpRetryId j ts, j.component, j.version, j.name, j.filter, Status.running, t,
   none, pid, none,
   hd ++ "/" ++ j.name ++ "/" ++ j.name ++ "-download.log", hd, fr,
   ra, ek, j.directToRegistry, j.downloadMode, "", none, 0⟩

def retryCp4i (s : MgrState) (_did : String) (j : JobCfg) (ts pid t : Nat)
    (ovHome ovReg ovAuth ovKey : Option String) (spawnOk : Bool) :
    MgrState × RetryRes :=
  if spawnOk then
    let dl1 := s.downloads.filter (fun p => p.2.name ≠ j.name)
    let hist1 := s.history.filter (fun h => h.name ≠ j.name)
    (⟨setD (cpRetryId j ts) (cpRetryJob j ts pid t ovHome ovReg ovAuth ovKey)
        dl1, hist1⟩,
     RetryRes.ok (cpRetryId j ts))
  else (s, RetryRes.spawnFail)

/-- `retry_download did`, dispatching on the retried job's component.

* `"openshift"` branch: requires a version; purges only the history
  entry with the retried id (before spawning); registers the new job
  without touching other active jobs.
* `"redhat-operators"` branch: resolves the catalog version (falling
  back to a version of the form `v...`); same id-only history purge.
* every other component (the CP4I branch): spawn first, then — under
  the registry lock — remove every active job and history entry whose
  `name` equals the retried job's name, and insert the new job.

`ts` is the `int(time.time())` used to build the new id, `t` the
`datetime.now()` start stamp, `spawnOk` whether `Popen` succeeded, and
the `ov*` arguments the optional overrides of the request body (only
read in the CP4I branch). -/
def retry_download (s : MgrState) (did : String) (ts pid t : Nat)
    (ovHome ovReg ovAuth ovKey : Option String) (spawnOk : Bool) :
    MgrState × RetryRes :=
  match foundCfg s did with
  | none => (s, RetryRes.notFound)
  | some j =>
    if j.component = "openshift" then
      retryOpenshift s did j ts pid t spawnOk
    else if j.component = "redhat-operators" then
      retryOperators s did j ts pid t spawnOk
    else
      retryCp4i s did j ts pid t ovHome ovReg ovAuth ovKey spawnOk

/-! ## The state-changing operations as a single step type -/

/-- Every modelled state-changing operation, with its external inputs.
The grace-window halves of the marker-terminal paths appear as their
own steps (`opFailMark`, `opCompleteMark`, `opGraceRemove`): they are
the atomic granularity at which other threads interleave, alongside
the folded whole-step forms `opPoll` / `opFinal`. -/
inductive Op where
  | opStart (did : String) (p : StartParams) (spawnOk : Bool) (pid t : Nat)
  | opStop (did : String) (termOk : Bool) (t : Nat)
  | opDismiss (did : String) (k1 k2 : Bool) (t : Nat)
  | opPoll (did : String) (log : Option String) (cur last : Nat)
      (pm : Option Nat) (t : Nat)
  | opFinal (did : String) (log : Option String) (rc : Int) (t : Nat)
  | opRetry (did : String) (ts pid t : Nat) (ovh ovr ova ovk : Option String)
      (spawnOk : Bool)
  | opFailMark (did : String) (t : Nat)
  | opCompleteMark (did : String) (t : Nat)
  | opGraceRemove (did : String)

/-- Effect of an operation on the shared state. -/
def applyOp : Op → MgrState → MgrState
  | Op.opStart did p ok pid t, s => (start_download s did p ok pid t).state
  | Op.opStop did ok t, s => (stop_download s did ok t).1
  | Op.opDismiss did k1 k2 t, s => (dismiss_download s did k1 k2 t).1
  | Op.opPoll did log c l pm t, s => (monPoll s did log c l pm t).state
  | Op.opFinal did log rc t, s => (monFinal s did log rc t).1
  | Op.opRetry did ts pid t a b c d ok, s =>
      (retry_download s did ts pid t a b c d ok).1
  | Op.opFailMark did t, s => monFailMark s did t
  | Op.opCompleteMark did t, s => monCompleteMark s did t
  | Op.opGraceRemove did, s => monGraceRemove s did

/-- No registered job ever carries `dismissed`: the only writer of
that status, `dismiss_download`, removes the job inside the same
critical section.  `failed` and `completed`, by contrast, *are*
carried by a registered job during the grace windows (see
`monFailMark` / `monCompleteMark`), and `stopped` jobs stay registered
until their monitor reclassifies them. -/
def NoDismissedInReg (s : MgrState) : Prop :=
  ∀ p ∈ s.downloads, p.2.status ≠ Status.dismissed

/-! ## Shared concrete fixture -/

/-- A freshly launched CP4I job as `start_download` registers it. -/
def baseJob : Download :=
  ⟨"alpha-100", "cp4i", "16.1.0", "alpha", none, Status.running, 1, none, 41,
   none, "/opt/cp4i/alpha/alpha-download.log", "/opt/cp4i",
   "registry.example.com:5000", "/root/.docker/config.json", none, false,
   "standard", "", none, 0⟩


/-! ## Concrete fixtures used by witnesses and counterexamples -/

/-- Registry holding the single job `baseJob`. -/
def regOne : MgrState := ⟨[("alpha-100", baseJob)], []⟩

/-- A log whose last non-empty line carries the failure marker. -/
def failLog : String := "mirroring images\nerror: one or more errors occurred\n"

/-- A log whose last non-empty line carries the completion marker. -/
def okLog : String := "mirroring images\ninfo: mirroring completed\n"

/-- A log carrying the dry-run marker but neither line marker. -/
def dryLog : String := "planning [dry run] only\nnothing pushed"

/-- A last line carrying both the failure and the completion marker. -/
def bothLine : String :=
  "error: one or more errors occurred info: mirroring completed"

/-- The interleaving of C1: the monitor's in-loop failure path appends
its history entry and releases the lock for the grace sleep; a dismiss
lands in the window (the job is still registered); the monitor then
performs its guarded delete. -/
def racePoint : MgrState :=
  monGraceRemove
    ((dismiss_download (monFailMark regOne "alpha-100" 5) "alpha-100" false
        false 6).1)
    "alpha-100"

/-- `regOne` after stopping its job. -/
def stoppedS : MgrState := (stop_download regOne "alpha-100" true 5).1

/-- `baseJob` mid-run with a recorded progress estimate. -/
def progJob : Download :=
  { baseJob with status := Status.progressing, progress := 42 }

/-- Registry holding `progJob`. -/
def progS : MgrState := ⟨[("alpha-100", progJob)], []⟩

/-- An active openshift job named `osjob`. -/
def osActive : Download :=
  ⟨"osjob-50", "openshift", "4.14.1", "osjob", none, Status.running, 1, none,
   61, none, "/opt/ocp/osjob.log", "/opt/ocp", "registry.example.com:5000",
   "/root/.docker/config.json", none, false, "standard", "filesystem", none, 0⟩

/-- An older terminal record of the logical name `osjob`. -/
def osHistOld : HistoryEntry :=
  ⟨"osjob-0", "openshift", "4.14.1", "osjob", none, Status.dismissed, 0, some 1,
   "/opt/ocp", "registry.example.com:5000", "/root/.docker/config.json", none,
   false, "standard", "filesystem", none⟩

/-- The terminal record being retried. -/
def osHistRetried : HistoryEntry :=
  ⟨"osjob-1", "openshift", "4.14.1", "osjob", none, Status.failed, 2, some 3,
   "/opt/ocp", "registry.example.com:5000", "/root/.docker/config.json", none,
   false, "standard", "filesystem", none⟩

/-- State for the C2 counterexample: an active job and a second history
entry share the retried job's logical name. -/
def c2State : MgrState := ⟨[("osjob-50", osActive)], [osHistRetried, osHistOld]⟩

/-- A stale CP4I history entry sharing `baseJob`'s logical name. -/
def cpHistDup : HistoryEntry :=
  ⟨"alpha-7", "cp4i", "16.1.0", "alpha", none, Status.failed, 0, some 1,
   "/opt/cp4i", "registry.example.com:5000", "/root/.docker/config.json", none,
   false, "standard", "", none⟩

/-- State for the C2 witness: the CP4I retry must purge `cpHistDup`. -/
def cpState : MgrState := ⟨[("alpha-100", baseJob)], [cpHistDup]⟩

/-! ## Basic lemmas about the registry operations -/

theorem mem_removeD {p : String × Download} {k : String}
    {l : List (String × Download)} (h : p ∈ removeD k l) : p ∈ l := by
  have := List.mem_filter.mp h
  exact this.1

theorem mem_setD {p : String × Download} {k : String} {d : Download}
    {l : List (String × Download)} (h : p ∈ setD k d l) :
    p = (k, d) ∨ p ∈ l := by
  rcases List.mem_cons.mp h with h1 | h2
  · exact Or.inl h1
  · exact Or.inr (mem_removeD h2)

theorem lookupD_mem {k : String} {d : Download}
    {l : List (String × Download)} (h : lookupD k l = some d) : (k, d) ∈ l := by
  induction l with
  | nil => simp [lookupD] at h
  | cons a rest ih =>
    rcases a with ⟨a1, a2⟩
    by_cases hk : a1 = k
    · subst hk
      simp [lookupD] at h
      subst h
      exact List.mem_cons_self _ _
    · simp [lookupD, hk] at h
      exact List.mem_cons_of_mem _ (ih h)

theorem pidCapture_status (d : Download) (pm : Option Nat) :
    (pidCapture d pm).status = d.status := by
  unfold pidCapture
  cases d.mirrorPid with
  | none =>
    cases pm with
    | none => rfl
    | some q => rfl
  | some p =>
    cases pm with
    | none => by_cases hp : p = 0 <;> simp [hp]
    | some q => by_cases hp : p = 0 <;> simp [hp]

theorem growthUpdate_status (d : Download) (g : Bool) :
    (growthUpdate d g).status = Status.progressing ∨
      (growthUpdate d g).status = d.status := by
  unfold growthUpdate
  split
  · split
    · exact Or.inl rfl
    · exact Or.inr rfl
  · exact Or.inr rfl

theorem lookupD_removeD_self (k : String) (l : List (String × Download)) :
    lookupD k (removeD k l) = none := by
  induction l with
  | nil => rfl
  | cons a rest ih =>
    rcases a with ⟨a1, a2⟩
    by_cases ha : a1 = k
    · simpa [removeD, ha] using ih
    · simpa [removeD, lookupD, ha] using ih

theorem lookupD_removeD_ne {k j : String} (h : k ≠ j)
    (l : List (String × Download)) :
    lookupD k (removeD j l) = lookupD k l := by
  induction l with
  | nil => rfl
  | cons a rest ih =>
    rcases a with ⟨a1, a2⟩
    by_cases ha : a1 = j
    · have h1 : removeD j ((a1, a2) :: rest) = removeD j rest := by
        simp [removeD, ha]
      have hak : ¬ a1 = k := by
        rw [ha]
        exact fun e => h e.symm
      have h2 : lookupD k ((a1, a2) :: rest) = lookupD k rest := by
        simp [lookupD, hak]
      rw [h1, h2]
      exact ih
    · have h1 : removeD j ((a1, a2) :: rest) = (a1, a2) :: removeD j rest := by
        simp [removeD, ha]
      rw [h1]
      by_cases hk : a1 = k
      · simp [lookupD, hk]
      · simp only [lookupD, hk, if_false]
        exact ih

theorem lookupD_setD_self (k : String) (d : Download)
    (l : List (String × Download)) :
    lookupD k (setD k d l) = some d := by
  simp [setD, lookupD]

theorem lookupD_setD_ne {k j : String} (h : k ≠ j) (d : Download)
    (l : List (String × Download)) :
    lookupD k (setD j d l) = lookupD k l := by
  have hj : ¬ j = k := fun e => h (e.symm ▸ rfl)
  simp only [setD, lookupD, hj, if_false]
  exact lookupD_removeD_ne h l

/-! ## C6: duplicate launch -/

/-- C6: a launch request whose id is already registered returns the
duplicate-job error before control reaches `subprocess.Popen`, and the
whole state — in particular the registered job — is unchanged. -/
theorem c6_duplicate_launch (s : MgrState) (did : String) (p : StartParams)
    (spawnOk : Bool) (pid t : Nat) (d : Download)
    (hd : lookupD did s.downloads = some d) :
    start_download s did p spawnOk pid t = ⟨s, StartRes.dupError, false⟩ := by
  unfold start_download
  simp [hd]

theorem c6_duplicate_launch_witness :
    start_download ⟨[("alpha-100", baseJob)], []⟩ "alpha-100"
        ⟨"cp4i", "16.1.0", "alpha", none, none, none, none, none, false,
         "standard"⟩ true 77 9 =
      ⟨⟨[("alpha-100", baseJob)], []⟩, StartRes.dupError, false⟩ :=
  c6_duplicate_launch _ _ _ _ _ _ baseJob (by decide)

/-! ## C7: dismiss -/

/-- C7: dismissing a registered id always marks the job `dismissed`,
stamps the end time, appends exactly one history entry and removes the
job — for every combination of kill outcomes (the source swallows all
kill failures); dismissing an unknown id returns the not-found error
and changes nothing. -/
theorem c7_dismiss_always_finalizes (s : MgrState) (did : String)
    (k1 k2 : Bool) (t : Nat) :
    (∀ d, lookupD did s.downloads = some d →
      dismiss_download s did k1 k2 t =
        (⟨removeD did s.downloads,
          s.history ++
            [mkHist { d with status := Status.dismissed, endTime := some t }]⟩,
         true)) ∧
    (lookupD did s.downloads = none →
      dismiss_download s did k1 k2 t = (s, false)) := by
  constructor
  · intro d hd
    unfold dismiss_download
    rw [hd]
    rfl
  · intro hn
    unfold dismiss_download
    rw [hn]

theorem c7_dismiss_always_finalizes_witness :
    dismiss_download ⟨[("alpha-100", baseJob)], []⟩ "alpha-100" false false 9 =
      (⟨[], [mkHist { baseJob with status := Status.dismissed, endTime := some 9 }]⟩,
       true) := by
  have h := (c7_dismiss_always_finalizes ⟨[("alpha-100", baseJob)], []⟩
      "alpha-100" false false 9).1 baseJob (by decide)
  rw [h]
  decide

/-! ## C10: stop is a two-field update -/

/-- C10: stopping a job whose status is exactly `running` updates only
its status (to `stopped`) and end time: the job stays registered, no
history entry is appended, every other field of the job and every
other registry entry are unchanged.  Finalization is left to the
monitor. -/
theorem c10_stop_frame (s : MgrState) (did : String) (t : Nat) (d : Download)
    (hd : lookupD did s.downloads = some d)
    (hrun : d.status = Status.running) :
    stop_download s did true t =
      (⟨setD did { d with status := Status.stopped, endTime := some t }
          s.downloads, s.history⟩, StopRes.ok) ∧
    lookupD did (stop_download s did true t).1.downloads =
      some { d with status := Status.stopped, endTime := some t } ∧
    (∀ k, k ≠ did →
      lookupD k (stop_download s did true t).1.downloads =
        lookupD k s.downloads) ∧
    (stop_download s did true t).1.history = s.history := by
  have h1 : stop_download s did true t =
      (⟨setD did { d with status := Status.stopped, endTime := some t }
          s.downloads, s.history⟩, StopRes.ok) := by
    unfold stop_download
    rw [hd]
    simp [hrun]
  refine ⟨h1, ?_, ?_, ?_⟩
  · rw [h1]
    exact lookupD_setD_self _ _ _
  · intro k hk
    rw [h1]
    exact lookupD_setD_ne hk _ _
  · rw [h1]

theorem c10_stop_frame_witness :
    stop_download ⟨[("alpha-100", baseJob)], []⟩ "alpha-100" true 5 =
      (⟨[("alpha-100",
          { baseJob with status := Status.stopped, endTime := some 5 })], []⟩,
       StopRes.ok) := by
  have h := (c10_stop_frame ⟨[("alpha-100", baseJob)], []⟩ "alpha-100" 5 baseJob
      (by decide) (by decide)).1
  rw [h]
  decide


/-! ## C3: failure marker -/

/-- C3: whenever the log exists and its last non-empty line contains
the failure marker (case-insensitively), a not-yet-failed job is marked
`failed`, its end time is stamped, exactly one history entry is
appended and the job leaves the registry — both when the marker is seen
by a poll iteration and at final classification, for every exit
code. -/
theorem c3_failure_marker (s : MgrState) (did : String) (t : Nat)
    (d : Download) (content : String) (curSize lastSize : Nat)
    (pm : Option Nat) (rc : Int)
    (hd : lookupD did s.downloads = some d)
    (hst : d.status ≠ Status.failed)
    (hfail : lineFail content = true) :
    ((monPoll s did (some content) curSize lastSize pm t).returned = true ∧
     lookupD did
       (monPoll s did (some content) curSize lastSize pm t).state.downloads =
       none ∧
     (∃ dj, (monPoll s did (some content) curSize lastSize pm t).job = some dj ∧
        dj.status = Status.failed ∧ dj.endTime = some t ∧
        (monPoll s did (some content) curSize lastSize pm t).state.history =
          s.history ++ [mkHist dj])) ∧
    monFinal s did (some content) rc t =
      (finalize s did (asFailed d t), some (asFailed d t)) := by
  have hgs : (growthUpdate (pidCapture d pm)
      (decide (lastSize < curSize))).status ≠ Status.failed := by
    rcases growthUpdate_status (pidCapture d pm) (decide (lastSize < curSize))
      with h | h
    · rw [h]
      decide
    · rw [h, pidCapture_status]
      exact hst
  have hpoll : monPoll s did (some content) curSize lastSize pm t =
      ⟨finalize s did
          (asFailed (growthUpdate (pidCapture d pm)
            (decide (lastSize < curSize))) t),
        (if lastSize < curSize then curSize else lastSize), true,
        some (asFailed (growthUpdate (pidCapture d pm)
          (decide (lastSize < curSize))) t)⟩ := by
    unfold monPoll
    rw [hd]
    simp only [hfail, if_true, asFailed]
    rw [if_pos hgs]
  constructor
  · refine ⟨?_, ?_, ?_⟩
    · rw [hpoll]
    · rw [hpoll]
      exact lookupD_removeD_self did s.downloads
    · exact ⟨asFailed (growthUpdate (pidCapture d pm)
          (decide (lastSize < curSize))) t,
        by rw [hpoll], rfl, rfl, by rw [hpoll]; rfl⟩
  · unfold monFinal
    simp only [hfail, if_true, hd]
    rw [if_pos hst]
    rfl

theorem c3_failure_marker_witness :
    (monPoll regOne "alpha-100" (some failLog) 40 0 none 9).returned = true ∧
    lookupD "alpha-100"
      (monPoll regOne "alpha-100" (some failLog) 40 0 none 9).state.downloads =
      none ∧
    monFinal regOne "alpha-100" (some failLog) 0 9 =
      (finalize regOne "alpha-100" (asFailed baseJob 9),
       some (asFailed baseJob 9)) := by
  have h := c3_failure_marker regOne "alpha-100" 9 baseJob failLog 40 0 none 0
    (by decide) (by decide) (by decide)
  exact ⟨h.1.1, h.1.2.1, h.2⟩

/-! ## C4: completion marker and the dry-run condition -/

/-- C4 counterexample to the claim as stated: a last log line that
contains the completion marker but also the failure marker is
classified `failed`, not `completed` — the in-loop failure check runs
first. -/
theorem c4_completion_counterexample :
    lineOk bothLine = true ∧
    (monPoll regOne "alpha-100" (some bothLine) 1 0 none 9).job.map
      Download.status = some Status.failed ∧
    (monPoll regOne "alpha-100" (some bothLine) 1 0 none 9).state.history.map
      HistoryEntry.status = [Status.failed] := by decide

/-- C4 (amended): provided the last non-empty log line does *not*
contain the failure marker, a completion-marker last line — or, at
final classification, the dry-run marker in the log together with exit
code 0 — drives a not-yet-completed job to `completed` with progress
100, stamps its end time, appends one history entry and removes it
from the registry. -/
theorem c4_completion_amended (s : MgrState) (did : String) (t : Nat)
    (d : Download) (content : String) (curSize lastSize : Nat)
    (pm : Option Nat) (rc : Int)
    (hd : lookupD did s.downloads = some d)
    (hst : d.status ≠ Status.completed)
    (hnofail : lineFail content = false) :
    (lineOk content = true →
      ((monPoll s did (some content) curSize lastSize pm t).returned = true ∧
       lookupD did
         (monPoll s did (some content) curSize lastSize pm t).state.downloads =
         none ∧
       (∃ dj,
          (monPoll s did (some content) curSize lastSize pm t).job = some dj ∧
          dj.status = Status.completed ∧ dj.progress = 100 ∧
          dj.endTime = some t ∧
          (monPoll s did (some content) curSize lastSize pm t).state.history =
            s.history ++ [mkHist dj]))) ∧
    ((lineOk content = true ∨ (dryIn content = true ∧ rc = 0)) →
      monFinal s did (some content) rc t =
        (finalize s did (asCompleted d t), some (asCompleted d t))) := by
  have hgs : (growthUpdate (pidCapture d pm)
      (decide (lastSize < curSize))).status ≠ Status.completed := by
    rcases growthUpdate_status (pidCapture d pm) (decide (lastSize < curSize))
      with h | h
    · rw [h]
      decide
    · rw [h, pidCapture_status]
      exact hst
  constructor
  · intro hok
    have hpoll : monPoll s did (some content) curSize lastSize pm t =
        ⟨finalize s did
            (asCompleted (growthUpdate (pidCapture d pm)
              (decide (lastSize < curSize))) t),
          (if lastSize < curSize then curSize else lastSize), true,
          some (asCompleted (growthUpdate (pidCapture d pm)
            (decide (lastSize < curSize))) t)⟩ := by
      unfold monPoll
      rw [hd]
      simp only [hnofail, Bool.false_eq_true, if_false, hok, if_true,
        asCompleted]
      rw [if_pos hgs]
    refine ⟨by rw [hpoll], ?_, ?_⟩
    · rw [hpoll]
      exact lookupD_removeD_self did s.downloads
    · exact ⟨asCompleted (growthUpdate (pidCapture d pm)
          (decide (lastSize < curSize))) t,
        by rw [hpoll], rfl, rfl, rfl, by rw [hpoll]; rfl⟩
  · intro hc
    have hcond : (lineOk content || (dryIn content && decide (rc = 0))) =
        true := by
      cases hc with
      | inl h1 => simp [h1]
      | inr h2 => simp [h2.1, h2.2]
    unfold monFinal
    simp only [hnofail, Bool.false_eq_true, if_false, hcond, if_true, hd]
    rw [if_pos hst]
    rfl

theorem c4_completion_amended_witness :
    (monPoll regOne "alpha-100" (some okLog) 40 0 none 9).returned = true ∧
    monFinal regOne "alpha-100" (some dryLog) 0 9 =
      (finalize regOne "alpha-100" (asCompleted baseJob 9),
       some (asCompleted baseJob 9)) := by
  have h1 := (c4_completion_amended regOne "alpha-100" 9 baseJob okLog 40 0
      none 0 (by decide) (by decide) (by decide)).1 (by decide)
  have h2 := (c4_completion_amended regOne "alpha-100" 9 baseJob dryLog 40 0
      none 0 (by decide) (by decide) (by decide)).2 (Or.inr ⟨by decide, rfl⟩)
  exact ⟨h1.1, h2⟩

/-! ## C5: exit-code fallback -/

/-- C5: when the process has exited and no marker matches (or there is
no log file at all), final classification assigns `completed` with
progress 100 on exit code 0 and `failed` on a nonzero code, appending
exactly one history entry and removing the job in either case. -/
theorem c5_exit_code_fallback (s : MgrState) (did : String) (t : Nat)
    (d : Download) (rc : Int) (log : Option String)
    (hd : lookupD did s.downloads = some d)
    (hnomark : log = none ∨ ∃ c, log = some c ∧ lineFail c = false ∧
      lineOk c = false ∧ (dryIn c = false ∨ rc ≠ 0)) :
    monFinal s did log rc t =
      if rc = 0 then (finalize s did (asCompleted d t), some (asCompleted d t))
      else (finalize s did (asFailed d t), some (asFailed d t)) := by
  have hfb : monFallback s did rc t =
      if rc = 0 then (finalize s did (asCompleted d t), some (asCompleted d t))
      else (finalize s did (asFailed d t), some (asFailed d t)) := by
    unfold monFallback
    by_cases hrc : rc = 0
    · simp [hrc, hd, finalize, asCompleted]
    · simp [hrc, hd, finalize, asFailed]
  cases hnomark with
  | inl h =>
    rw [h]
    unfold monFinal
    exact hfb
  | inr h =>
    obtain ⟨c, hc, hf, ho, hdry⟩ := h
    rw [hc]
    unfold monFinal
    have hcond : (lineOk c || (dryIn c && decide (rc = 0))) = false := by
      cases hdry with
      | inl hdn => simp [ho, hdn]
      | inr hrc => simp [ho, hrc]
    simp only [hf, hcond, Bool.false_eq_true, if_false]
    exact hfb

theorem c5_exit_code_fallback_witness :
    monFinal regOne "alpha-100" none 2 9 =
      (finalize regOne "alpha-100" (asFailed baseJob 9),
       some (asFailed baseJob 9)) := by
  have h := c5_exit_code_fallback regOne "alpha-100" 9 baseJob 2 none
    (by decide) (Or.inl rfl)
  rw [h]
  decide

/-! ## C1: the duplicate-history interleaving -/

/-- C1: a concrete interleaving — in-loop failure handling appends its
history entry, a dismiss lands during the five-second grace window —
records *two* history entries and two different terminal statuses for
one job id. -/
theorem c1_duplicate_history_race :
    histCount racePoint "alpha-100" = 2 ∧
    racePoint.history.map HistoryEntry.status =
      [Status.failed, Status.dismissed] ∧
    lookupD "alpha-100" racePoint.downloads = none := by decide

/-! ## C8: terminal statuses and the post-exit overwrite -/

/-- C8 counterexample to the claim as stated: a job stopped via
`stop_download` holds the terminal status `stopped`, yet the monitor's
post-exit classification replaces it with `failed` (the exit-code
fallback carries no status guard) and records `failed` in history. -/
theorem c8_counterexample :
    (lookupD "alpha-100" stoppedS.downloads).map Download.status =
      some Status.stopped ∧
    (monFinal stoppedS "alpha-100" none (-15) 9).2.map Download.status =
      some Status.failed ∧
    (monFinal stoppedS "alpha-100" none (-15) 9).1.history.map
      HistoryEntry.status = [Status.failed] := by decide

/-! ## C9: the progress field of a status query -/

/-- C9: the query result carries the job's status, timestamps, pid and
log tail, but its `progress` field is *not* the job's progress
estimate: `get_download_status` passes the job's *name* to
`_get_progress`, which looks it up in the id-keyed registry — the
lookup misses (ids carry a timestamp suffix) and the field is `none`
even though the job's estimate is 42 and a summary file exists. -/
theorem c9_progress_not_the_estimate :
    progJob.progress = 42 ∧
    lookupD "alpha" progS.downloads = none ∧
    get_download_status progS "alpha-100" (some ["line1"]) (some "SUMMARY") =
      some ⟨"alpha-100", "cp4i", "16.1.0", "alpha", Status.progressing, 1, none,
        41, ["line1"], none⟩ := by decide

/-! ## C2: what each retry branch purges -/

theorem mem_removeD_of_ne {p : String × Download} {k : String}
    {l : List (String × Download)} (hp : p ∈ l) (hne : p.1 ≠ k) :
    p ∈ removeD k l :=
  List.mem_filter.mpr ⟨hp, by simp [hne]⟩

/-- Effects of the openshift retry branch with a successful spawn:
either the version is missing, or the history loses exactly the entries
with the retried id and the registry gains the new job on top of the
otherwise untouched active jobs. -/
theorem retryOpenshift_effects (s : MgrState) (did : String) (j : JobCfg)
    (ts pid t : Nat) :
    (retryOpenshift s did j ts pid t true).2 = RetryRes.missingData ∨
    ((retryOpenshift s did j ts pid t true).1.history =
        s.history.filter (fun h => h.id ≠ did) ∧
      (retryOpenshift s did j ts pid t true).2 =
        RetryRes.ok (osRetryId j ts) ∧
      (retryOpenshift s did j ts pid t true).1.downloads =
        setD (osRetryId j ts) (osRetryJob j ts pid t) s.downloads) := by
  by_cases hv : j.version = ""
  · left
    unfold retryOpenshift
    simp [hv]
  · right
    refine ⟨?_, ?_, ?_⟩ <;> (unfold retryOpenshift; simp [hv])

/-- Effects of the redhat-operators retry branch with a successful
spawn: same id-only history purge as the openshift branch. -/
theorem retryOperators_effects (s : MgrState) (did : String) (j : JobCfg)
    (ts pid t : Nat) :
    (retryOperators s did j ts pid t true).2 = RetryRes.missingData ∨
    ((retryOperators s did j ts pid t true).1.history =
        s.history.filter (fun h => h.id ≠ did) ∧
      ∃ cv, (retryOperators s did j ts pid t true).2 =
          RetryRes.ok (opRetryId cv ts) ∧
        (retryOperators s did j ts pid t true).1.downloads =
          setD (opRetryId cv ts) (opRetryJob j cv ts pid t) s.downloads) := by
  cases hcv : resolveCatalog j with
  | none =>
    left
    unfold retryOperators
    simp [hcv]
  | some cv =>
    right
    refine ⟨?_, cv, ?_, ?_⟩ <;> (unfold retryOperators; simp [hcv])

/-- Effects of the CP4I retry branch with a successful spawn: the
name-based purge of both the registry and the history, then the
insertion of the new job. -/
theorem retryCp4i_purges (s : MgrState) (did : String) (j : JobCfg)
    (ts pid t : Nat) (ovh ovr ova ovk : Option String) :
    (retryCp4i s did j ts pid t ovh ovr ova ovk true).2 =
      RetryRes.ok (cpRetryId j ts) ∧
    (retryCp4i s did j ts pid t ovh ovr ova ovk true).1.downloads =
      setD (cpRetryId j ts) (cpRetryJob j ts pid t ovh ovr ova ovk)
        (s.downloads.filter (fun p => p.2.name ≠ j.name)) ∧
    (retryCp4i s did j ts pid t ovh ovr ova ovk true).1.history =
      s.history.filter (fun h => h.name ≠ j.name) := by
  refine ⟨?_, ?_, ?_⟩ <;> (unfold retryCp4i; simp)

/-- C2 counterexample to the claim as stated: retrying the openshift
history entry `osjob-1` leaves both the active job `osjob-50` and the
older history entry `osjob-0` — which share the logical name `osjob` —
in place: the name-based purge does *not* happen for the openshift
branch. -/
theorem c2_retry_counterexample :
    (retry_download c2State "osjob-1" 123 55 7 none none none none true).2 =
      RetryRes.ok "osjob-retry-123" ∧
    osActive.name = "osjob" ∧ osHistOld.name = "osjob" ∧
    ("osjob-50", osActive) ∈
      (retry_download c2State "osjob-1" 123 55 7 none none none none
        true).1.downloads ∧
    osHistOld ∈
      (retry_download c2State "osjob-1" 123 55 7 none none none none
        true).1.history := by decide

/-- C2 (amended): the purge of *every* active job and history entry
sharing the retried job's logical name happens exactly in the CP4I
branch (component neither `openshift` nor `redhat-operators`), before
the new job is inserted under the freshly assigned id; the openshift
and redhat-operators branches remove only the history entries carrying
the retried job *id* and leave every other active job registered. -/
theorem c2_retry_purge_per_branch (s : MgrState) (did : String)
    (ts pid t : Nat) (ovh ovr ova ovk : Option String) (j : JobCfg)
    (hj : foundCfg s did = some j) :
    (j.component ≠ "openshift" → j.component ≠ "redhat-operators" →
      ∀ nid, (retry_download s did ts pid t ovh ovr ova ovk true).2 =
          RetryRes.ok nid →
        (∀ p ∈ (retry_download s did ts pid t ovh ovr ova ovk
            true).1.downloads, p.2.name = j.name → p.1 = nid) ∧
        (∀ e ∈ (retry_download s did ts pid t ovh ovr ova ovk
            true).1.history, e.name ≠ j.name)) ∧
    ((j.component = "openshift" ∨ j.component = "redhat-operators") →
      ∀ nid, (retry_download s did ts pid t ovh ovr ova ovk true).2 =
          RetryRes.ok nid →
        (retry_download s did ts pid t ovh ovr ova ovk true).1.history =
          s.history.filter (fun e => e.id ≠ did) ∧
        (∀ p ∈ s.downloads, p.1 ≠ nid →
          p ∈ (retry_download s did ts pid t ovh ovr ova ovk
            true).1.downloads)) := by
  constructor
  · intro hc1 hc2 nid hnid
    have hdisp : retry_download s did ts pid t ovh ovr ova ovk true =
        retryCp4i s did j ts pid t ovh ovr ova ovk true := by
      unfold retry_download
      simp [hj, hc1, hc2]
    rw [hdisp] at hnid ⊢
    obtain ⟨hok, hdl, hh⟩ := retryCp4i_purges s did j ts pid t ovh ovr ova ovk
    rw [hok] at hnid
    have hnid2 : cpRetryId j ts = nid := by
      injection hnid
    constructor
    · intro p hp hname
      rw [hdl] at hp
      rcases mem_setD hp with h1 | h2
      · rw [h1, ← hnid2]
      · exfalso
        have := (List.mem_filter.mp h2).2
        simp at this
        exact this hname
    · intro e he
      rw [hh] at he
      have := (List.mem_filter.mp he).2
      simpa using this
  · intro hcomp nid hnid
    cases hcomp with
    | inl hos =>
      have hdisp : retry_download s did ts pid t ovh ovr ova ovk true =
          retryOpenshift s did j ts pid t true := by
        unfold retry_download
        simp [hj, hos]
      rw [hdisp] at hnid ⊢
      rcases retryOpenshift_effects s did j ts pid t with hm | ⟨hh, hok, hdl⟩
      · rw [hm] at hnid
        exact RetryRes.noConfusion hnid
      · rw [hok] at hnid
        have hnid2 : osRetryId j ts = nid := by injection hnid
        refine ⟨hh, ?_⟩
        intro p hp hne
        rw [hdl]
        exact List.mem_cons_of_mem _
          (mem_removeD_of_ne hp (by rw [hnid2]; exact hne))
    | inr hop =>
      have hdisp : retry_download s did ts pid t ovh ovr ova ovk true =
          retryOperators s did j ts pid t true := by
        unfold retry_download
        rw [hj]
        have : ¬ j.component = "openshift" := by
          rw [hop]
          decide
        simp [this, hop]
      rw [hdisp] at hnid ⊢
      rcases retryOperators_effects s did j ts pid t with hm | ⟨hh, cv, hok, hdl⟩
      · rw [hm] at hnid
        exact RetryRes.noConfusion hnid
      · rw [hok] at hnid
        have hnid2 : opRetryId cv ts = nid := by injection hnid
        refine ⟨hh, ?_⟩
        intro p hp hne
        rw [hdl]
        exact List.mem_cons_of_mem _
          (mem_removeD_of_ne hp (by rw [hnid2]; exact hne))

theorem c2_retry_purge_per_branch_witness :
    ((retry_download cpState "alpha-100" 5 77 9 none none none none
        true).1.downloads.all
      (fun p => p.2.name ≠ "alpha" || p.1 = "alpha-retry-5")) = true ∧
    ((retry_download cpState "alpha-100" 5 77 9 none none none none
        true).1.history.all (fun e => e.name ≠ "alpha")) = true := by
  have h := (c2_retry_purge_per_branch cpState "alpha-100" 5 77 9 none none
      none none baseJob.cfg (by decide)).1 (by decide) (by decide)
      "alpha-retry-5" (by decide)
  constructor
  · apply List.all_eq_true.mpr
    intro p hp
    by_cases hn : p.2.name = "alpha"
    · have := h.1 p hp hn
      simp [this]
    · simp [hn]
  · apply List.all_eq_true.mpr
    intro e he
    have := h.2 e he
    simpa using this

/-! ## C8: only `dismissed` is final, and it is never registered -/

theorem noDis_removeD {s : MgrState} (k : String)
    (hInv : NoDismissedInReg s) :
    ∀ p ∈ removeD k s.downloads, p.2.status ≠ Status.dismissed :=
  fun p hp => hInv p (mem_removeD hp)

theorem noDis_start (s : MgrState) (hInv : NoDismissedInReg s) (did : String)
    (p : StartParams) (ok : Bool) (pid t : Nat) :
    NoDismissedInReg (start_download s did p ok pid t).state := by
  unfold start_download
  split
  · exact hInv
  · split
    · intro q hq
      rcases mem_setD hq with h1 | h2
      · rw [h1]
        simp
      · exact hInv q h2
    · exact hInv

theorem noDis_stop (s : MgrState) (hInv : NoDismissedInReg s) (did : String)
    (ok : Bool) (t : Nat) :
    NoDismissedInReg (stop_download s did ok t).1 := by
  unfold stop_download
  cases hl : lookupD did s.downloads with
  | none => exact hInv
  | some d =>
    simp only []
    split
    · exact hInv
    · split
      · intro q hq
        rcases mem_setD hq with h1 | h2
        · rw [h1]
          simp
        · exact hInv q h2
      · exact hInv

theorem noDis_dismiss (s : MgrState) (hInv : NoDismissedInReg s)
    (did : String) (k1 k2 : Bool) (t : Nat) :
    NoDismissedInReg (dismiss_download s did k1 k2 t).1 := by
  unfold dismiss_download
  cases hl : lookupD did s.downloads with
  | none => exact hInv
  | some d => exact noDis_removeD did hInv

theorem noDis_poll (s : MgrState) (hInv : NoDismissedInReg s) (did : String)
    (log : Option String) (cur last : Nat) (pm : Option Nat) (t : Nat) :
    NoDismissedInReg (monPoll s did log cur last pm t).state := by
  cases hl : lookupD did s.downloads with
  | none =>
    simp only [monPoll, hl]
    exact hInv
  | some d =>
    cases log with
    | none =>
      simp only [monPoll, hl]
      exact hInv
    | some content =>
      simp only [monPoll, hl]
      split
      · split
        · exact noDis_removeD did hInv
        · exact noDis_removeD did hInv
      · split
        · split
          · exact noDis_removeD did hInv
          · exact noDis_removeD did hInv
        · intro q hq
          rcases mem_setD hq with h1 | h2
          · rw [h1]
            rcases growthUpdate_status (pidCapture d pm)
                (decide (last < cur)) with h | h
            · rw [h]
              decide
            · rw [h, pidCapture_status]
              exact hInv (did, d) (lookupD_mem hl)
          · exact hInv q h2

theorem noDis_final (s : MgrState) (hInv : NoDismissedInReg s) (did : String)
    (log : Option String) (rc : Int) (t : Nat) :
    NoDismissedInReg (monFinal s did log rc t).1 := by
  have hfb : NoDismissedInReg (monFallback s did rc t).1 := by
    unfold monFallback
    split
    · cases hl : lookupD did s.downloads with
      | none => exact hInv
      | some d => exact noDis_removeD did hInv
    · cases hl : lookupD did s.downloads with
      | none => exact hInv
      | some d => exact noDis_removeD did hInv
  cases log with
  | none =>
    simp only [monFinal]
    exact hfb
  | some content =>
    simp only [monFinal]
    split
    · cases hl : lookupD did s.downloads with
      | none => exact hInv
      | some d =>
        simp only [hl]
        split
        · exact noDis_removeD did hInv
        · exact noDis_removeD did hInv
    · split
      · cases hl : lookupD did s.downloads with
        | none => exact hInv
        | some d =>
          simp only [hl]
          split
          · exact noDis_removeD did hInv
          · exact noDis_removeD did hInv
      · exact hfb

theorem noDis_retry (s : MgrState) (hInv : NoDismissedInReg s) (did : String)
    (ts pid t : Nat) (ovh ovr ova ovk : Option String) (ok : Bool) :
    NoDismissedInReg (retry_download s did ts pid t ovh ovr ova ovk ok).1 := by
  cases hj : foundCfg s did with
  | none =>
    simp only [retry_download, hj]
    exact hInv
  | some j =>
    simp only [retry_download, hj]
    split
    · unfold retryOpenshift
      split
      · exact hInv
      · split
        · intro q hq
          rcases mem_setD hq with h1 | h2
          · rw [h1]
            simp [osRetryJob]
          · exact hInv q h2
        · exact hInv
    · split
      · unfold retryOperators
        cases hcv : resolveCatalog j with
        | none => exact hInv
        | some cv =>
          simp only []
          split
          · intro q hq
            rcases mem_setD hq with h1 | h2
            · rw [h1]
              simp [opRetryJob]
            · exact hInv q h2
          · exact hInv
      · unfold retryCp4i
        split
        · intro q hq
          rcases mem_setD hq with h1 | h2
          · rw [h1]
            simp [cpRetryJob]
          · exact hInv q (List.mem_filter.mp h2).1
        · exact hInv

theorem noDis_failMark (s : MgrState) (hInv : NoDismissedInReg s)
    (did : String) (t : Nat) : NoDismissedInReg (monFailMark s did t) := by
  unfold monFailMark
  cases hl : lookupD did s.downloads with
  | none => exact hInv
  | some d =>
    simp only []
    split
    · intro q hq
      rcases mem_setD hq with h1 | h2
      · rw [h1]
        simp
      · exact hInv q h2
    · exact hInv

theorem noDis_completeMark (s : MgrState) (hInv : NoDismissedInReg s)
    (did : String) (t : Nat) : NoDismissedInReg (monCompleteMark s did t) := by
  unfold monCompleteMark
  cases hl : lookupD did s.downloads with
  | none => exact hInv
  | some d =>
    simp only []
    split
    · intro q hq
      rcases mem_setD hq with h1 | h2
      · rw [h1]
        simp [asCompleted]
      · exact hInv q h2
    · exact hInv

theorem noDis_graceRemove (s : MgrState) (hInv : NoDismissedInReg s)
    (did : String) : NoDismissedInReg (monGraceRemove s did) :=
  noDis_removeD did hInv

/-- C8 (amended): of the four terminal statuses only `dismissed` is
final.  Every operation — including the split grace-window halves
`monFailMark` / `monCompleteMark` / `monGraceRemove`, the granularity
at which threads really interleave — preserves the invariant that no
registered job carries `dismissed`: the only writer of that status
removes the job inside the same critical section.  Hence once a job is
dismissed it is deregistered, its history entry is immutable, and no
later operation can replace its status.  `completed` and `failed`
are final only after the guarded delete: during the grace window the
job is still registered and a dismiss replaces them (the C1 race), and
`stopped` is replaced by the monitor's post-exit classification (see
the counterexample). -/
theorem c8_dismissed_is_final (op : Op) (s : MgrState)
    (hInv : NoDismissedInReg s) : NoDismissedInReg (applyOp op s) := by
  cases op with
  | opStart did p ok pid t => exact noDis_start s hInv did p ok pid t
  | opStop did ok t => exact noDis_stop s hInv did ok t
  | opDismiss did k1 k2 t => exact noDis_dismiss s hInv did k1 k2 t
  | opPoll did log cur last pm t => exact noDis_poll s hInv did log cur last pm t
  | opFinal did log rc t => exact noDis_final s hInv did log rc t
  | opRetry did ts pid t a b c dd ok =>
    exact noDis_retry s hInv did ts pid t a b c dd ok
  | opFailMark did t => exact noDis_failMark s hInv did t
  | opCompleteMark did t => exact noDis_completeMark s hInv did t
  | opGraceRemove did => exact noDis_graceRemove s hInv did

theorem c8_dismissed_is_final_witness :
    NoDismissedInReg (applyOp (Op.opDismiss "alpha-100" false false 6)
      (monFailMark regOne "alpha-100" 5)) :=
  c8_dismissed_is_final (Op.opDismiss "alpha-100" false false 6)
    (monFailMark regOne "alpha-100" 5) (by unfold NoDismissedInReg; decide)
